import Mathlib

/-!
Shallow embedding of the `ga_web_scrap` repository (Python, Selenium-based
web scraper) for checking its natural-language specification.

The scrapers drive a live browser; every DOM observation (row texts, button
classes, calendar header labels, element presence) is modelled as an input
environment indexed by loop iteration.  Pure parsing and bookkeeping logic
(string normalisation, integer parsing, deduplication maps, loop control,
column layout) is translated directly from the source.  Clicks, sleeps and
log `print` calls have no effect on the data flow and are not modelled,
except where a log message is part of a claim.
-/

namespace GaWebScrap

/-! ## Python string primitives (ASCII model)

All helpers are written by structural recursion over the character list so
that every definition evaluates inside the kernel. -/

/-- Python `str.strip()`: remove leading and trailing whitespace. -/
def pyStrip (s : String) : String :=
  String.mk (((s.toList.dropWhile Char.isWhitespace).reverse.dropWhile
    Char.isWhitespace).reverse)

/-- Python `str.isdigit()`: nonempty and all characters are digits. -/
def pyIsDigit (s : String) : Bool :=
  !s.toList.isEmpty && s.toList.all Char.isDigit

/-- Python `s.replace(c, "")` for a one-character pattern: remove every
occurrence of `c`. -/
def pyRemoveChar (s : String) (c : Char) : String :=
  String.mk (s.toList.filter (fun a => a != c))

/-- Does the second list start with the first? -/
def startsWithB : List Char → List Char → Bool
  | [], _ => true
  | _ :: _, [] => false
  | a :: as, b :: bs => a == b && startsWithB as bs

/-- Does the second list contain the first as a contiguous run? -/
def containsSeq (needle : List Char) : List Char → Bool
  | [] => needle.isEmpty
  | b :: bs => startsWithB needle (b :: bs) || containsSeq needle bs

/-- Python `c in s` for a one-character `c`. -/
def strContainsChar (s : String) (c : Char) : Bool :=
  s.toList.any (fun a => a == c)

/-- Python `s.split(c)[0]`: the text before the first occurrence of `c`. -/
def pyTakeBefore (s : String) (c : Char) : String :=
  String.mk (s.toList.takeWhile (fun a => a != c))

/-- Python `s[:n]`. -/
def pyTake (s : String) (n : Nat) : String :=
  String.mk (s.toList.take n)

/-- ASCII uppercase of one character. -/
def asciiUpperChar (c : Char) : Char :=
  if 'a' ≤ c ∧ c ≤ 'z' then Char.ofNat (c.toNat - 32) else c

/-- Python `str.upper()` (ASCII). -/
def pyUpper (s : String) : String :=
  String.mk (s.toList.map asciiUpperChar)

/-- ASCII lowercase of one character. -/
def asciiLowerChar (c : Char) : Char :=
  if 'A' ≤ c ∧ c ≤ 'Z' then Char.ofNat (c.toNat + 32) else c

/-- Value of a list of decimal digit characters. -/
def digitsVal (l : List Char) : Nat :=
  l.foldl (fun a c => a * 10 + (c.toNat - 48)) 0

/-- Python `int(s)` on a string: optional surrounding whitespace, optional
sign, then decimal digits; `none` models a raised `ValueError`. -/
def pyInt (s : String) : Option Int :=
  match (pyStrip s).toList with
  | [] => none
  | '+' :: rest =>
      if !rest.isEmpty && rest.all Char.isDigit then
        some (Int.ofNat (digitsVal rest))
      else none
  | '-' :: rest =>
      if !rest.isEmpty && rest.all Char.isDigit then
        some (-(Int.ofNat (digitsVal rest)))
      else none
  | l =>
      if l.all Char.isDigit then some (Int.ofNat (digitsVal l)) else none

/-- Accumulating splitter for `pySplitWs`: `cur` holds the reversed
current token. -/
def splitWsAux : List Char → List Char → List String
  | [], cur => if cur.isEmpty then [] else [String.mk cur.reverse]
  | c :: cs, cur =>
    if c.isWhitespace then
      if cur.isEmpty then splitWsAux cs []
      else String.mk cur.reverse :: splitWsAux cs []
    else splitWsAux cs (c :: cur)

/-- Python `str.split()` with no argument: split on whitespace runs,
discarding empty pieces. -/
def pySplitWs (s : String) : List String :=
  splitWsAux s.toList []

/-- Python `needle in hay` substring test. -/
def strContainsSub (hay needle : String) : Bool :=
  containsSeq needle.toList hay.toList

/-- Python `str.lower()` (ASCII). -/
def pyLower (s : String) : String :=
  String.mk (s.toList.map asciiLowerChar)

/-! ## Data model: `models/pageview_record.py` -/

/-- A calendar date, as Python `datetime.date`. -/
structure PyDate where
  year : Nat
  month : Nat
  day : Nat
deriving DecidableEq, Repr

/-- `PageViewRecord`: one row of the scraped tables. -/
structure PageViewRecord where
  date : PyDate
  language : String
  rank : Int
  url : String
  views : Int
  source : String
deriving DecidableEq, Repr

/-! ## Configuration: `config.py`

The report URLs are read with `os.getenv` (after `load_dotenv()`), so they
are functions of the process environment, modelled as
`String → Option String`.  The browser path is a string constant. -/

/-- `LOOKER_STUDIO_URL = os.getenv("LOOKER_STUDIO_URL")`. -/
def LOOKER_STUDIO_URL (env : String → Option String) : Option String :=
  env "LOOKER_STUDIO_URL"

/-- `GA4_report_URL = os.getenv("GA4_report_URL")`. -/
def GA4_report_URL (env : String → Option String) : Option String :=
  env "GA4_report_URL"

/-- `BRAVE_PATH`: the hardcoded browser binary path. -/
def BRAVE_PATH : String :=
  "C:\\Program Files\\BraveSoftware\\Brave-Browser\\Application\\brave.exe"

/-! ## Looker Studio scraper: `services/analytics_scraper.py` -/

/-- `MONTH_MAP` from `analytics_scraper.py` (English and Spanish). -/
def MONTH_MAP : List (String × Nat) :=
  [("JAN", 1), ("ENE", 1), ("FEB", 2), ("MAR", 3), ("APR", 4), ("ABR", 4),
   ("MAY", 5), ("JUN", 6), ("JUL", 7), ("AUG", 8), ("AGO", 8), ("SEP", 9),
   ("SET", 9), ("OCT", 10), ("NOV", 11), ("DEC", 12), ("DIC", 12)]

/-- Lookup of a month key in `MONTH_MAP`. -/
def monthLookup (k : String) : Option Nat :=
  (MONTH_MAP.find? (fun p => p.1 == k)).map (fun p => p.2)

/-- One DOM row of a Looker Studio table as observed by the scrape loop:
`stale` models a `StaleElementReferenceException` while reading the row,
`cells` the stripped-later texts of its `div.cell` children, and `linkText`
the text of an `<a>` inside the second cell when one exists. -/
structure LookerRow where
  stale : Bool
  cells : List String
  linkText : Option String
deriving DecidableEq, Repr

/-- Rank-cell normalisation: `cells[0].text.strip().replace(".", "").strip()`. -/
def lookerRankText (row : LookerRow) : String :=
  pyStrip (pyRemoveChar (pyStrip (row.cells.headD "")) '.')

/-- Views-cell normalisation: `cells[2].text.strip().replace(",", "")`. -/
def lookerViewsText (row : LookerRow) : String :=
  pyRemoveChar (pyStrip (row.cells.getD 2 "")) ','

/-- Row parsing inside `_scrape_table_for_language`: a stale row or a row
with fewer than 3 cells is skipped, a non-digit normalised rank text is
skipped (`continue`), an unparsable views text yields `views = 0`. -/
def parseLookerRow (lang : String) (d : PyDate) (row : LookerRow) :
    Option PageViewRecord :=
  if row.stale then none
  else if row.cells.length < 3 then none
  else
    let rank_text := lookerRankText row
    if !pyIsDigit rank_text then none
    else
      let rank : Int := Int.ofNat (digitsVal rank_text.toList)
      let url_text :=
        match row.linkText with
        | some t => pyStrip t
        | none => pyStrip (row.cells.getD 1 "")
      let views : Int := (pyInt (lookerViewsText row)).getD 0
      some { date := d, language := lang, rank := rank, url := url_text,
             views := views, source := "Looker Studio" }

/-- The `records_map: dict[tuple[int, str], PageViewRecord]`, as an
insertion-ordered association list (Python dict semantics). -/
abbrev RecMap := List ((Int × String) × PageViewRecord)

/-- Python dict assignment `records_map[key] = rec`: replace in place when
the key exists, append otherwise. -/
def upsert (m : RecMap) (k : Int × String) (v : PageViewRecord) : RecMap :=
  if m.any (fun p => decide (p.1 = k)) then
    m.map (fun p => if p.1 = k then (k, v) else p)
  else m ++ [(k, v)]

/-- The inner `for row in rows` body: parse each row and upsert it under
the key `(rank, url_text)`. -/
def processSnap (lang : String) (d : PyDate) (m : RecMap)
    (rows : List LookerRow) : RecMap :=
  rows.foldl (fun acc row =>
    match parseLookerRow lang d row with
    | none => acc
    | some r => upsert acc (r.rank, r.url) r) m

/-- The internal scroll loop of `_scrape_table_for_language` (fuel is
`max_scrolls = 40` at the top call).  `snaps i` is the row list returned by
`find_elements` at scroll iteration `i`; the loop breaks when no rows are
found, or after 2 consecutive iterations added no new deduplicated record.
Returns the final map and the index of the first unprocessed iteration. -/
def scrollAux (snaps : Nat → List LookerRow) (lang : String) (d : PyDate) :
    Nat → Nat → Nat → RecMap → RecMap × Nat
  | 0, i, _, m => (m, i)
  | fuel + 1, i, consec, m =>
    let rows := snaps i
    if rows.isEmpty then (m, i)
    else
      let m2 := processSnap lang d m rows
      let consec2 := if m2.length = m.length then consec + 1 else 0
      if 2 ≤ consec2 then (m2, i + 1)
      else scrollAux snaps lang d fuel (i + 1) consec2 m2

/-- Observations for one pagination page: the scroll snapshots of that page,
whether the pager and its `div.pageForward` control were found, and the raw
`class` attribute of the forward control (`None` is modelled by `""`, as in
`get_attribute("class") or ""`). -/
structure PageEnv where
  snaps : Nat → List LookerRow
  pagerPresent : Bool
  nextClasses : String

/-- The pagination loop of `_scrape_table_for_language` (fuel is
`max_pages = 10` at the top call).  Each page runs the scroll loop onto the
shared `records_map`, then stops when the pager is missing or when the
token `disabled` appears in the forward control's class list; otherwise the
control is clicked and the next page is processed.  Returns the final map
and the index of the first unprocessed page. -/
def scrapePages (env : Nat → PageEnv) (lang : String) (d : PyDate) :
    Nat → Nat → RecMap → RecMap × Nat
  | 0, i, m => (m, i)
  | fuel + 1, i, m =>
    let pe := env i
    let m2 := (scrollAux pe.snaps lang d 40 0 0 m).1
    if !pe.pagerPresent then (m2, i + 1)
    else if "disabled" ∈ pySplitWs pe.nextClasses then (m2, i + 1)
    else scrapePages env lang d fuel (i + 1) m2

/-- `_scrape_table_for_language`: run the page loop starting from an empty
`records_map` and return `list(records_map.values())`.  Container
identification (`_get_table_containers`) is assumed to succeed; its failure
raises and returns no list. -/
def scrape_table_for_language (env : Nat → PageEnv) (lang : String)
    (d : PyDate) : List PageViewRecord :=
  ((scrapePages env lang d 10 0 []).1).map (fun p => p.2)

/-- The warning printed by `_wait_for_tables` on timeout. -/
def waitForTablesLog : List String :=
  ["Warning: Tables did not load or contain no data."]

/-- `scrape_current_tables`: if `_wait_for_tables` timed out it has printed
its warning and the method returns `[]`; otherwise the EN and FR tables are
scraped and concatenated (`containersOk = false` models the RuntimeError
raised by `_get_table_containers`).  The result pairs the lines printed by
the timeout path with either the record list or a raised error. -/
def scrape_current_tables (tablesPresent : Bool) (containersOk : Bool)
    (envEN envFR : Nat → PageEnv) (d : PyDate) :
    List String × Except String (List PageViewRecord) :=
  if !tablesPresent then (waitForTablesLog, Except.ok [])
  else if !containersOk then
    ([], Except.error "Could not identify EN/FR tables.")
  else
    ([], Except.ok (scrape_table_for_language envEN "EN" d ++
      scrape_table_for_language envFR "FR" d))

/-! ## Calendar navigation: `_shift_calendar_to_month`

One `CalObs` per loop iteration: `headerLabel` is the period button text
(`none` models an exception while reading the header), `yearVisible` says
whether the target year cell is found when the header shows a year range.
All other branches of the loop body (month-grid click, zoom-out click,
prev/next click whether present, disabled or clicked) end in `continue`,
so they do not alter control flow beyond advancing the iteration. -/

structure CalObs where
  headerLabel : Option String
  yearVisible : Bool

/-- Does a header label denote the day-grid view of the target month?  This
mirrors the reachability conditions of the `return` in the source: no dash
in the label, at least two whitespace-separated parts, last part parses as
`int`, first three uppercased characters of the first part in `MONTH_MAP`,
and both equal the target. -/
def dayViewMatch (ty tm : Nat) (o : CalObs) : Bool :=
  match o.headerLabel with
  | none => false
  | some label =>
    if strContainsChar label '–' || strContainsChar label '-' then false
    else
      let parts := pySplitWs label
      if parts.length < 2 then false
      else
        match pyInt (parts.getLastD ""),
              monthLookup (pyTake (pyUpper (parts.headD "")) 3) with
        | some y, some m => decide (y = Int.ofNat ty) && decide (m = tm)
        | _, _ => false

/-- The `for _ in range(max_steps)` loop of `_shift_calendar_to_month`
(fuel is `max_steps = 48` at the top call); `ty`/`tm` are the target year
and month.  `Except.error` models the two `raise RuntimeError` sites. -/
def shiftAux (env : Nat → CalObs) (ty tm : Nat) :
    Nat → Nat → Except String Unit
  | 0, _ => Except.error "Could not reach month after 48 attempts."
  | fuel + 1, i =>
    let o := env i
    match o.headerLabel with
    | none => shiftAux env ty tm fuel (i + 1)
    | some label =>
      if strContainsChar label '–' || strContainsChar label '-' then
        -- Case 1: year range view; click the target year or raise.
        if o.yearVisible then shiftAux env ty tm fuel (i + 1)
        else Except.error "Year not visible in range view."
      else
        let parts := pySplitWs label
        if parts.length == 1 && pyIsDigit (parts.headD "") then
          -- Case 2: month grid; click the month (or fall through to the
          -- zoom-out below) and continue either way.
          shiftAux env ty tm fuel (i + 1)
        else if parts.length < 2 then
          -- Unknown state: zoom out and continue.
          shiftAux env ty tm fuel (i + 1)
        else
          match pyInt (parts.getLastD "") with
          | none => shiftAux env ty tm fuel (i + 1)
          | some year_val =>
            match monthLookup (pyTake (pyUpper (parts.headD "")) 3) with
            | none => shiftAux env ty tm fuel (i + 1)
            | some month_val =>
              if year_val = Int.ofNat ty ∧ month_val = tm then Except.ok ()
              else
                -- Case 3 navigation: click prev/next, or zoom out when the
                -- button is absent or disabled; all paths continue.
                shiftAux env ty tm fuel (i + 1)

/-- `_shift_calendar_to_month` with its `max_steps = 48` budget. -/
def shift_calendar_to_month (env : Nat → CalObs) (ty tm : Nat) :
    Except String Unit :=
  shiftAux env ty tm 48 0

/-! ## GA4 scraper: `services/ga4_scraper.py` -/

/-- One DOM row of the GA4 report table: each `Option` cell is `none` when
the corresponding `find_element` raises (for the rank cell the bare
`except` maps this to `rank = 0`; a missing url or views cell aborts the
row via the outer `except ... continue`). -/
structure GA4Row where
  stale : Bool
  urlCell : Option String
  rankCell : Option String
  viewsCell : Option String
deriving DecidableEq, Repr

/-- Views-cell normalisation:
`views_text_full.split('(')[0].strip().replace(",", "")` where
`views_text_full = views_cell.text.strip()`. -/
def ga4ViewsClean (vc : String) : String :=
  pyRemoveChar (pyStrip (pyTakeBefore (pyStrip vc) '(')) ','

/-- Rank parsing: `int(rank_cell.text.strip())` with a bare `except`
yielding 0, which also covers a missing rank cell. -/
def ga4Rank (row : GA4Row) : Int :=
  (row.rankCell.bind (fun t => pyInt (pyStrip t))).getD 0

/-- The `for row in rows` body of `GA4Scraper.scrape_data`: `none` when the
row is stale, a cell lookup raises, or the url text is empty or
`"(not set)"` (then nothing is appended). -/
def parseGA4Row (d : PyDate) (row : GA4Row) : Option PageViewRecord :=
  if row.stale then none
  else
    match row.urlCell with
    | none => none
    | some u =>
      let url_text := pyStrip u
      let rank := ga4Rank row
      match row.viewsCell with
      | none => none
      | some vc =>
        let views_clean := ga4ViewsClean vc
        let views : Int :=
          if pyIsDigit views_clean then Int.ofNat (digitsVal views_clean.toList)
          else 0
        let lang := if strContainsSub (pyLower url_text) "/en/" then "EN"
          else "FR"
        if url_text ≠ "" ∧ url_text ≠ "(not set)" then
          some { date := d, language := lang, rank := rank, url := url_text,
                 views := views, source := "Google Analytics" }
        else none

/-- Parse one GA4 page's rows, appending each produced record. -/
def ga4ProcessRows (d : PyDate) (rows : List GA4Row)
    (acc : List PageViewRecord) : List PageViewRecord :=
  rows.foldl (fun acc1 row =>
    match parseGA4Row d row with
    | none => acc1
    | some r => acc1 ++ [r]) acc

/-- Observations for one GA4 page: its rows and the result of
`_go_to_next_page` (false when the increment button is missing or
disabled). -/
structure GA4PageEnv where
  rows : List GA4Row
  nextOk : Bool

/-- The `while current_page < max_pages` loop of `scrape_data` (fuel is
`max_pages = 100` at the top call). -/
def ga4Loop (env : Nat → GA4PageEnv) (d : PyDate) :
    Nat → Nat → List PageViewRecord → List PageViewRecord
  | 0, _, acc => acc
  | fuel + 1, page, acc =>
    let pe := env page
    if pe.rows.isEmpty then acc
    else
      let acc2 := ga4ProcessRows d pe.rows acc
      if pe.nextOk then ga4Loop env d fuel (page + 1) acc2 else acc2

/-- `GA4Scraper.scrape_data`: empty when the reporting table never appears
(`TimeoutException`), otherwise the page loop output.  Records are appended
to a plain list; there is no deduplication. -/
def scrape_data (env : Nat → GA4PageEnv) (tablePresent : Bool) (d : PyDate) :
    List PageViewRecord :=
  if tablePresent then ga4Loop env d 100 0 [] else []

/-! ## Excel export: `services/excel_exporter.py` -/

/-- A spreadsheet cell value. -/
inductive Cell where
  | str (s : String)
  | int (n : Int)
deriving DecidableEq, Repr

/-- Zero-padded two-digit rendering. -/
def pad2 (n : Nat) : String :=
  if n < 10 then "0" ++ toString n else toString n

/-- Zero-padded four-digit rendering. -/
def pad4 (n : Nat) : String :=
  if n < 10 then "000" ++ toString n
  else if n < 100 then "00" ++ toString n
  else if n < 1000 then "0" ++ toString n
  else toString n

/-- Python `date.isoformat()`. -/
def pyDateIso (d : PyDate) : String :=
  pad4 d.year ++ "-" ++ pad2 d.month ++ "-" ++ pad2 d.day

/-- Keys of the per-record dict built in `export_pageviews_to_excel`, in
insertion order; the range keys are added exactly when both bounds are
supplied. -/
def rowKeys (rs re : Option PyDate) : List String :=
  ["date", "language", "rank", "url", "views"] ++
    (if rs.isSome && re.isSome then ["range_start", "range_end"] else [])

/-- `desired_order`, extended with the range columns when `range_start` is
among the DataFrame columns. -/
def desiredOrder (cols : List String) : List String :=
  ["date", "language", "rank", "url", "views"] ++
    (if "range_start" ∈ cols then ["range_start", "range_end"] else [])

/-- `final_cols = [c for c in desired_order if c in df.columns]`. -/
def finalCols (cols : List String) : List String :=
  (desiredOrder cols).filter (fun c => decide (c ∈ cols))

/-- The exported header row: the reordered columns of the DataFrame built
from the row dicts. -/
def exportHeader (rs re : Option PyDate) : List String :=
  finalCols (rowKeys rs re)

/-- One exported data row, in the final column order. -/
def exportRow (rs re : Option PyDate) (r : PageViewRecord) : List Cell :=
  [Cell.str (pyDateIso r.date), Cell.str (pyUpper r.language),
   Cell.int r.rank, Cell.str r.url, Cell.int r.views] ++
    (match rs, re with
     | some a, some b => [Cell.str (pyDateIso a), Cell.str (pyDateIso b)]
     | _, _ => [])

/-- A written sheet: its name, the single header row written by
`to_excel(..., index=False)`, and the data rows below it. -/
structure Sheet where
  name : String
  headerRow : List String
  dataRows : List (List Cell)
deriving DecidableEq, Repr

/-- The workbook written by `pd.ExcelWriter`. -/
structure Workbook where
  sheets : List Sheet
deriving DecidableEq, Repr

/-- `export_pageviews_to_excel`: returns `none` when there are no rows
(the function prints and returns without writing a file), otherwise the
workbook with one sheet named `Data`. -/
def export_pageviews_to_excel (records : List PageViewRecord)
    (rs re : Option PyDate) : Option Workbook :=
  if records.isEmpty then none
  else
    some { sheets := [{ name := "Data", headerRow := exportHeader rs re,
                        dataRows := records.map (exportRow rs re) }] }

/-! ## Concrete inputs used by witnesses and counterexamples -/

/-- A fixed scrape date. -/
def dWit : PyDate := ⟨2025, 12, 1⟩

/-- A GA4 row whose url, rank and views cells all read cleanly. -/
def ga4RowDup : GA4Row :=
  { stale := false, urlCell := some "/en/a", rankCell := some "1",
    viewsCell := some "5" }

/-- A GA4 environment whose first page shows the same row twice and whose
pagination immediately stops. -/
def ga4EnvDup : Nat → GA4PageEnv :=
  fun _ => { rows := [ga4RowDup, ga4RowDup], nextOk := false }

/-- A Looker row with a well-formed rank, url and views. -/
def lookerRowWit : LookerRow :=
  { stale := false, cells := ["1", "/en/a", "5"], linkText := none }

/-- The record produced from `lookerRowWit`. -/
def recWit : PageViewRecord :=
  ⟨dWit, "EN", 1, "/en/a", 5, "Looker Studio"⟩

/-- A scroll environment showing the same single row at every position. -/
def snapsWit : Nat → List LookerRow := fun _ => [lookerRowWit]

/-- A pagination environment whose forward control carries the `disabled`
class from the start. -/
def pageEnvWit : Nat → PageEnv :=
  fun _ => { snaps := fun _ => [], pagerPresent := true,
             nextClasses := "pageForward disabled" }

/-- A Looker row whose rank cell is not numeric even after normalisation. -/
def lookerRowBadRank : LookerRow :=
  { stale := false, cells := ["Grand total", "/en/a", "5"], linkText := none }

/-- A Looker row whose views cell does not parse as an integer. -/
def lookerRowBadViews : LookerRow :=
  { stale := false, cells := ["1", "/a", "zz"], linkText := none }

/-- The record produced from `lookerRowBadViews`. -/
def recBadViews : PageViewRecord := ⟨dWit, "EN", 1, "/a", 0, "Looker Studio"⟩

/-- A Looker row whose raw rank text `"1."` is not purely numeric but
normalises to `"1"`. -/
def lookerRowDotRank : LookerRow :=
  { stale := false, cells := ["1.", "/en/a", "5"], linkText := none }

/-- A calendar environment whose header never becomes readable. -/
def calEnvWit : Nat → CalObs := fun _ => ⟨none, false⟩

/-- The record produced from `ga4RowDup`. -/
def recGa4Dup : PageViewRecord :=
  ⟨dWit, "EN", 1, "/en/a", 5, "Google Analytics"⟩

/-- A GA4 row whose rank cell is missing. -/
def ga4RowNoRank : GA4Row :=
  { stale := false, urlCell := some "/fr/x", rankCell := none,
    viewsCell := some "7" }

/-- The record produced from `ga4RowNoRank`. -/
def recGa4NoRank : PageViewRecord :=
  ⟨dWit, "FR", 0, "/fr/x", 7, "Google Analytics"⟩

/-- A GA4 row whose views cell is not numeric. -/
def ga4RowBadViews : GA4Row :=
  { stale := false, urlCell := some "/fr/x", rankCell := some "2",
    viewsCell := some "n/a" }

/-- The record produced from `ga4RowBadViews`. -/
def recGa4BadViews : PageViewRecord :=
  ⟨dWit, "FR", 2, "/fr/x", 0, "Google Analytics"⟩

/-! ## Theorems -/

/-- C2. Within `_scrape_table_for_language`, whenever two consecutive
scroll iterations add no new deduplicated record to `records_map`, the
scroll loop stops there: starting from any reachable loop state at
iteration `i`, no snapshot beyond index `i + 1` is ever processed. -/
theorem c2_scroll_stops_after_two_stalls
    (snaps : Nat → List LookerRow) (lang : String) (d : PyDate)
    (fuel i consec : Nat) (m : RecMap)
    (h1 : (processSnap lang d m (snaps i)).length = m.length)
    (h2 : (processSnap lang d (processSnap lang d m (snaps i))
            (snaps (i + 1))).length =
          (processSnap lang d m (snaps i)).length) :
    (scrollAux snaps lang d fuel i consec m).2 ≤ i + 2 := by
  match fuel with
  | 0 => simp [scrollAux]
  | 1 =>
    simp only [scrollAux]
    split
    · simp
    · split
      · simp
      · simp
  | n + 2 =>
    simp only [scrollAux]
    split
    · simp
    · split
      · simp
      · split
        · simp
        · split
          · simp
          · omega

/-- Closed witness for the C2 theorem at a concrete environment. -/
theorem c2_witness :
    (processSnap "EN" dWit [((1, "/en/a"), recWit)] (snapsWit 1)).length = 1 ∧
    (scrollAux snapsWit "EN" dWit 39 1 0 [((1, "/en/a"), recWit)]).2 ≤ 3 :=
  ⟨by decide,
   c2_scroll_stops_after_two_stalls snapsWit "EN" dWit 39 1 0
     [((1, "/en/a"), recWit)] (by decide) (by decide)⟩

/-- C3. In the pagination loop of `_scrape_table_for_language`: if the
`next` control of page `i` carries the `disabled` class token, the loop
stops after page `i` (no later page is processed); and whenever a page
past `i` is processed, the pager of page `i` was present and its `next`
control did not carry the `disabled` class. -/
theorem c3_pagination_never_past_disabled
    (env : Nat → PageEnv) (lang : String) (d : PyDate)
    (fuel i : Nat) (m : RecMap) :
    ("disabled" ∈ pySplitWs (env i).nextClasses →
      (scrapePages env lang d fuel i m).2 ≤ i + 1) ∧
    (i + 1 < (scrapePages env lang d fuel i m).2 →
      (env i).pagerPresent = true ∧
      "disabled" ∉ pySplitWs (env i).nextClasses) := by
  match fuel with
  | 0 =>
    constructor
    · intro _; simp [scrapePages]
    · intro hlt; simp only [scrapePages] at hlt; omega
  | n + 1 =>
    constructor
    · intro hdis
      simp only [scrapePages]
      split
      · simp
      · simp
    · intro hlt
      simp only [scrapePages] at hlt
      split at hlt
      · simp at hlt
      · split at hlt
        · simp at hlt
        · rename_i hpager hdis
          refine ⟨?_, hdis⟩
          simpa using hpager

/-- Closed witness for the C3 theorem at a concrete environment. -/
theorem c3_witness :
    "disabled" ∈ pySplitWs (pageEnvWit 0).nextClasses ∧
    (scrapePages pageEnvWit "EN" dWit 10 0 []).2 ≤ 1 :=
  ⟨by decide,
   (c3_pagination_never_past_disabled pageEnvWit "EN" dWit 10 0 []).1
     (by decide)⟩

/-- Helper for C5: the exported column list, by cases on the two optional
range bounds. -/
theorem exportHeader_eq (rs re : Option PyDate) :
    exportHeader rs re = ["date", "language", "rank", "url", "views"] ++
      (if rs.isSome && re.isSome then ["range_start", "range_end"]
       else []) := by
  cases rs <;> cases re <;> rfl

/-- C5. For every non-empty record list, the exporter writes a workbook
with exactly one sheet and one header row whose columns are
`date, language, rank, url, views`, followed by `range_start, range_end`
exactly when both range bounds are supplied, and by neither otherwise;
the sheet has one data row per record. -/
theorem c5_export_columns (records : List PageViewRecord)
    (rs re : Option PyDate) (h : records ≠ []) :
    ∃ wb, export_pageviews_to_excel records rs re = some wb ∧
      wb.sheets.length = 1 ∧
      ∀ s ∈ wb.sheets,
        s.headerRow = ["date", "language", "rank", "url", "views"] ++
          (if rs.isSome && re.isSome then ["range_start", "range_end"]
           else []) ∧
        s.dataRows.length = records.length := by
  have hne : records.isEmpty = false := by
    cases records with
    | nil => exact absurd rfl h
    | cons a l => rfl
  refine ⟨{ sheets := [{ name := "Data", headerRow := exportHeader rs re,
                         dataRows := records.map (exportRow rs re) }] },
          ?_, rfl, ?_⟩
  · unfold export_pageviews_to_excel
    rw [hne]
    rfl
  · intro s hs
    simp only [List.mem_singleton] at hs
    subst hs
    exact ⟨exportHeader_eq rs re, by simp⟩

/-- Closed witness for the C5 theorem at a concrete record list. -/
theorem c5_witness :
    ([recWit] : List PageViewRecord) ≠ [] ∧
    (∃ wb, export_pageviews_to_excel [recWit] (some dWit) none = some wb ∧
      wb.sheets.length = 1 ∧
      ∀ s ∈ wb.sheets,
        s.headerRow = ["date", "language", "rank", "url", "views"] ++
          (if (some dWit).isSome && (none : Option PyDate).isSome then
            ["range_start", "range_end"] else []) ∧
        s.dataRows.length = ([recWit] : List PageViewRecord).length) :=
  ⟨by decide, c5_export_columns [recWit] (some dWit) none (by decide)⟩

/-- C6 counterexample. The raw rank cell text `"1."` is not purely numeric
(`isdigit` is false on it), yet the row is not skipped: the parser still
produces a record, because the code strips whitespace and removes `.`
characters before testing `isdigit`. -/
theorem c6_counterexample :
    pyIsDigit "1." = false ∧
    (parseLookerRow "EN" dWit lookerRowDotRank).isSome = true := by
  constructor
  · decide
  · decide

/-- C6 amended. Row parsing in `_scrape_table_for_language` continues with
defaults instead of aborting: a row whose rank cell text, after stripping
whitespace and removing `.` characters, is not purely numeric is skipped
and contributes no record; and a row that does produce a record but whose
normalised views text does not parse as an integer gets `views = 0`. -/
theorem c6_row_error_handling :
    (∀ (lang : String) (d : PyDate) (row : LookerRow),
        pyIsDigit (lookerRankText row) = false →
        parseLookerRow lang d row = none) ∧
    (∀ (lang : String) (d : PyDate) (row : LookerRow) (r : PageViewRecord),
        parseLookerRow lang d row = some r →
        pyInt (lookerViewsText row) = none → r.views = 0) := by
  constructor
  · intro lang d row hrank
    simp only [parseLookerRow]
    split
    · rfl
    · split
      · rfl
      · rw [hrank]
        rfl
  · intro lang d row r hparse hviews
    simp only [parseLookerRow] at hparse
    split at hparse
    · exact absurd hparse (by simp)
    · split at hparse
      · exact absurd hparse (by simp)
      · split at hparse
        · exact absurd hparse (by simp)
        · injection hparse with hrec
          subst hrec
          simp [hviews]

/-- Closed witness for the C6 amended theorem at concrete rows. -/
theorem c6_witness :
    pyIsDigit (lookerRankText lookerRowBadRank) = false ∧
    parseLookerRow "EN" dWit lookerRowBadRank = none ∧
    pyInt (lookerViewsText lookerRowBadViews) = none ∧
    recBadViews.views = 0 :=
  ⟨by decide,
   c6_row_error_handling.1 "EN" dWit lookerRowBadRank (by decide),
   by decide,
   c6_row_error_handling.2 "EN" dWit lookerRowBadViews recBadViews
     (by decide) (by decide)⟩

/-- C7. When the report tables fail to appear within the wait timeout,
`scrape_current_tables` emits the warning printed by `_wait_for_tables`
and returns the empty list normally instead of raising. -/
theorem c7_timeout_returns_empty (containersOk : Bool)
    (envEN envFR : Nat → PageEnv) (d : PyDate) :
    scrape_current_tables false containersOk envEN envFR d =
      (["Warning: Tables did not load or contain no data."],
       Except.ok []) := rfl

/-- C8 counterexample. The report URLs are not fixed constants of the
program: `LOOKER_STUDIO_URL` and `GA4_report_URL` are `os.getenv` reads,
so two different process environments give two different values. -/
theorem c8_counterexample :
    LOOKER_STUDIO_URL (fun _ => none) ≠
      LOOKER_STUDIO_URL (fun _ => some "https://lookerstudio.example/r") ∧
    GA4_report_URL (fun _ => none) ≠
      GA4_report_URL (fun _ => some "https://analytics.example/web") := by
  constructor
  · decide
  · decide

/-- C8 amended. The Looker Studio and GA4 report URLs are read from the
environment variables `LOOKER_STUDIO_URL` and `GA4_report_URL`
(optionally supplied through a `.env` file) and are unset when the
variables are absent; they are inputs, not fixed constants, and they can
differ between two environments. -/
theorem c8_urls_from_env :
    (∀ env : String → Option String,
        LOOKER_STUDIO_URL env = env "LOOKER_STUDIO_URL" ∧
        GA4_report_URL env = env "GA4_report_URL") ∧
    (∃ e1 e2 : String → Option String,
        LOOKER_STUDIO_URL e1 ≠ LOOKER_STUDIO_URL e2) ∧
    (∃ e1 e2 : String → Option String,
        GA4_report_URL e1 ≠ GA4_report_URL e2) :=
  ⟨fun _ => ⟨rfl, rfl⟩,
   ⟨fun _ => none, fun _ => some "x", by decide⟩,
   ⟨fun _ => none, fun _ => some "x", by decide⟩⟩

/-- Keys of a `records_map`, in insertion order. -/
def keysOf (m : RecMap) : List (Int × String) :=
  m.map (fun p => p.1)

/-- Invariant of `records_map`: keys are pairwise distinct and every stored
record carries its own key. -/
def goodMap (m : RecMap) : Prop :=
  (keysOf m).Nodup ∧ ∀ p ∈ m, p.2.rank = p.1.1 ∧ p.2.url = p.1.2

/-- Dict assignment preserves the `records_map` invariant. -/
theorem upsert_good {m : RecMap} {k : Int × String} {v : PageViewRecord}
    (h : goodMap m) (hv : v.rank = k.1 ∧ v.url = k.2) :
    goodMap (upsert m k v) := by
  obtain ⟨hnd, hcon⟩ := h
  unfold upsert
  split
  · constructor
    · have hkeys : keysOf (m.map (fun p => if p.1 = k then (k, v) else p)) =
          keysOf m := by
        unfold keysOf
        rw [List.map_map]
        apply List.map_congr_left
        intro p _
        by_cases hp : p.1 = k
        · simp [hp]
        · simp [hp]
      rw [hkeys]
      exact hnd
    · intro p hp
      rcases List.mem_map.mp hp with ⟨q, hq, hfq⟩
      by_cases hqk : q.1 = k
      · rw [if_pos hqk] at hfq
        rw [← hfq]
        exact hv
      · rw [if_neg hqk] at hfq
        rw [← hfq]
        exact hcon q hq
  · rename_i habs
    constructor
    · have hnotin : k ∉ keysOf m := by
        intro hk
        rcases List.mem_map.mp hk with ⟨q, hq, hq1⟩
        exact habs (List.any_eq_true.mpr ⟨q, hq, by simp [hq1]⟩)
      have : keysOf (m ++ [(k, v)]) = keysOf m ++ [k] := by
        simp [keysOf]
      rw [this]
      exact List.Nodup.append hnd (List.nodup_singleton k)
        (by simpa [List.disjoint_singleton] using hnotin)
    · intro p hp
      rcases List.mem_append.mp hp with hp | hp
      · exact hcon p hp
      · simp only [List.mem_singleton] at hp
        rw [hp]
        exact hv

/-- Processing one snapshot of rows preserves the invariant. -/
theorem processSnap_good (lang : String) (d : PyDate)
    (rows : List LookerRow) {m : RecMap} (h : goodMap m) :
    goodMap (processSnap lang d m rows) := by
  induction rows generalizing m with
  | nil => exact h
  | cons row rest ih =>
    have hstep : processSnap lang d m (row :: rest) =
        processSnap lang d
          (match parseLookerRow lang d row with
           | none => m
           | some r => upsert m (r.rank, r.url) r) rest := rfl
    rw [hstep]
    cases hp : parseLookerRow lang d row with
    | none => simpa [hp] using ih h
    | some r => exact ih (upsert_good h ⟨rfl, rfl⟩)

/-- The scroll loop preserves the invariant. -/
theorem scrollAux_good (snaps : Nat → List LookerRow) (lang : String)
    (d : PyDate) (fuel : Nat) :
    ∀ (i consec : Nat) (m : RecMap), goodMap m →
      goodMap (scrollAux snaps lang d fuel i consec m).1 := by
  induction fuel with
  | zero => intro i consec m h; exact h
  | succ n ih =>
    intro i consec m h
    have hps := processSnap_good lang d (snaps i) h
    simp only [scrollAux]
    repeat' split
    all_goals first
      | exact h
      | exact hps
      | exact ih _ _ _ hps

/-- The pagination loop preserves the invariant. -/
theorem scrapePages_good (env : Nat → PageEnv) (lang : String) (d : PyDate)
    (fuel : Nat) :
    ∀ (i : Nat) (m : RecMap), goodMap m →
      goodMap (scrapePages env lang d fuel i m).1 := by
  induction fuel with
  | zero => intro i m h; exact h
  | succ n ih =>
    intro i m h
    simp only [scrapePages]
    split
    · exact scrollAux_good (env i).snaps lang d 40 0 0 m h
    · split
      · exact scrollAux_good (env i).snaps lang d 40 0 0 m h
      · exact ih (i + 1) _ (scrollAux_good (env i).snaps lang d 40 0 0 m h)

/-- C1 amended. Within a single day/table scrape by the Looker Studio
scraper, `(rank, url)` is a natural key: the list returned by
`_scrape_table_for_language` contains at most one record for each
`(rank, url)` pair, for every environment, language and date.
(`GA4Scraper.scrape_data` does not deduplicate; see the
counterexample.) -/
theorem c1_looker_dedup (env : Nat → PageEnv) (lang : String) (d : PyDate) :
    ((scrape_table_for_language env lang d).map
      (fun r => (r.rank, r.url))).Nodup := by
  have hg : goodMap (scrapePages env lang d 10 0 []).1 :=
    scrapePages_good env lang d 10 0 [] ⟨List.nodup_nil, by simp⟩
  obtain ⟨hnd, hcon⟩ := hg
  unfold scrape_table_for_language
  rw [List.map_map]
  have hmaps : (scrapePages env lang d 10 0 []).1.map
      ((fun r => (r.rank, r.url)) ∘ (fun p => p.2)) =
      keysOf (scrapePages env lang d 10 0 []).1 := by
    apply List.map_congr_left
    intro p hp
    obtain ⟨h1, h2⟩ := hcon p hp
    simp [keysOf, Function.comp, h1, h2]
  rw [hmaps]
  exact hnd

/-- C1 counterexample. `GA4Scraper.scrape_data` does not deduplicate: with
a page that shows the same row twice, the returned list contains two
records with the same `(rank, url)` pair, so `(rank, url)` is not a
natural key for every day/table scrape of the program. -/
theorem c1_counterexample :
    ¬ ((scrape_data ga4EnvDup true dWit).map
        (fun r => (r.rank, r.url))).Nodup := by decide

/-- Helper for C9: every record produced by the GA4 row parser has a
non-empty url different from `(not set)` and a language derived from
case-insensitive `/en/` containment in that url. -/
theorem parseGA4Row_url_lang {d : PyDate} {row : GA4Row}
    {r : PageViewRecord} (h : parseGA4Row d row = some r) :
    r.url ≠ "" ∧ r.url ≠ "(not set)" ∧
      r.language =
        (if strContainsSub (pyLower r.url) "/en/" then "EN" else "FR") := by
  simp only [parseGA4Row] at h
  split at h
  · exact absurd h (by simp)
  · split at h
    · exact absurd h (by simp)
    · split at h
      · exact absurd h (by simp)
      · split at h
        · rename_i hcond
          injection h with hrec
          subst hrec
          exact ⟨hcond.1, hcond.2, rfl⟩
        · exact absurd h (by simp)

/-- Helper for C9: membership in the per-page fold comes from the
accumulator or from a parsed row. -/
theorem ga4ProcessRows_mem {d : PyDate} {rows : List GA4Row}
    {acc : List PageViewRecord} {r : PageViewRecord}
    (h : r ∈ ga4ProcessRows d rows acc) :
    r ∈ acc ∨ ∃ row, parseGA4Row d row = some r := by
  induction rows generalizing acc with
  | nil => exact Or.inl h
  | cons row rest ih =>
    have hstep : ga4ProcessRows d (row :: rest) acc =
        ga4ProcessRows d rest
          (match parseGA4Row d row with
           | none => acc
           | some rr => acc ++ [rr]) := rfl
    rw [hstep] at h
    cases hp : parseGA4Row d row with
    | none =>
      rw [hp] at h
      exact ih h
    | some rr =>
      rw [hp] at h
      rcases ih h with hin | hex
      · rcases List.mem_append.mp hin with hin | hin
        · exact Or.inl hin
        · simp only [List.mem_singleton] at hin
          subst hin
          exact Or.inr ⟨row, hp⟩
      · exact Or.inr hex

/-- Helper for C9: membership in the GA4 page loop output comes from the
accumulator or from a parsed row. -/
theorem ga4Loop_mem {env : Nat → GA4PageEnv} {d : PyDate} {fuel page : Nat}
    {acc : List PageViewRecord} {r : PageViewRecord}
    (h : r ∈ ga4Loop env d fuel page acc) :
    r ∈ acc ∨ ∃ row, parseGA4Row d row = some r := by
  induction fuel generalizing page acc with
  | zero => exact Or.inl h
  | succ n ih =>
    simp only [ga4Loop] at h
    split at h
    · exact Or.inl h
    · split at h
      · rcases ih h with hin | hex
        · exact ga4ProcessRows_mem hin
        · exact Or.inr hex
      · exact ga4ProcessRows_mem h

/-- C9. Every record emitted by `GA4Scraper.scrape_data` has a non-empty
url different from `(not set)`, and its language is `EN` exactly when the
lowercased url contains `/en/`, `FR` otherwise; furthermore the row parser
yields `rank = 0` when the rank cell is missing or fails to parse as an
integer, and `views = 0` when the normalised views text is not numeric. -/
theorem c9_ga4_record_fields :
    (∀ (env : Nat → GA4PageEnv) (tablePresent : Bool) (d : PyDate)
        (r : PageViewRecord), r ∈ scrape_data env tablePresent d →
        r.url ≠ "" ∧ r.url ≠ "(not set)" ∧
        r.language =
          (if strContainsSub (pyLower r.url) "/en/" then "EN" else "FR")) ∧
    (∀ (d : PyDate) (row : GA4Row) (r : PageViewRecord),
        parseGA4Row d row = some r →
        row.rankCell.bind (fun t => pyInt (pyStrip t)) = none →
        r.rank = 0) ∧
    (∀ (d : PyDate) (row : GA4Row) (r : PageViewRecord) (vc : String),
        parseGA4Row d row = some r → row.viewsCell = some vc →
        pyIsDigit (ga4ViewsClean vc) = false → r.views = 0) := by
  refine ⟨?_, ?_, ?_⟩
  · intro env tp d r h
    unfold scrape_data at h
    split at h
    · rcases ga4Loop_mem h with hin | ⟨row, hp⟩
      · exact absurd hin (List.not_mem_nil r)
      · exact parseGA4Row_url_lang hp
    · exact absurd h (List.not_mem_nil r)
  · intro d row r hp hrank
    simp only [parseGA4Row] at hp
    split at hp
    · exact absurd hp (by simp)
    · split at hp
      · exact absurd hp (by simp)
      · split at hp
        · exact absurd hp (by simp)
        · split at hp
          · injection hp with hrec
            subst hrec
            simp [ga4Rank, hrank]
          · exact absurd hp (by simp)
  · intro d row r vc hp hvc hdig
    simp only [parseGA4Row] at hp
    split at hp
    · exact absurd hp (by simp)
    · split at hp
      · exact absurd hp (by simp)
      · split at hp
        · exact absurd hp (by simp)
        · rename_i vc2 hvc2
          split at hp
          · injection hp with hrec
            subst hrec
            have hveq : vc2 = vc := by
              rw [hvc2] at hvc
              exact Option.some.inj hvc
            subst hveq
            simp [hdig]
          · exact absurd hp (by simp)

/-- Closed witness for the C9 theorem at concrete rows and environment. -/
theorem c9_witness :
    recGa4Dup ∈ scrape_data ga4EnvDup true dWit ∧
    (recGa4Dup.url ≠ "" ∧ recGa4Dup.url ≠ "(not set)" ∧
      recGa4Dup.language =
        (if strContainsSub (pyLower recGa4Dup.url) "/en/" then "EN"
         else "FR")) ∧
    recGa4NoRank.rank = 0 ∧ recGa4BadViews.views = 0 :=
  ⟨by decide,
   c9_ga4_record_fields.1 ga4EnvDup true dWit recGa4Dup (by decide),
   c9_ga4_record_fields.2.1 dWit ga4RowNoRank recGa4NoRank (by decide)
     (by decide),
   c9_ga4_record_fields.2.2 dWit ga4RowBadViews recGa4BadViews "n/a"
     (by decide) rfl (by decide)⟩

/-- Helper for C4: when the current observation matches the target month,
the navigation loop returns immediately. -/
theorem shiftAux_step_match {env : Nat → CalObs} {ty tm : Nat}
    (fuel i : Nat) (h : dayViewMatch ty tm (env i) = true) :
    shiftAux env ty tm (fuel + 1) i = Except.ok () := by
  unfold dayViewMatch at h
  simp only [shiftAux]
  cases hlab : (env i).headerLabel with
  | none => rw [hlab] at h; simp at h
  | some label =>
    rw [hlab] at h
    dsimp only at h ⊢
    by_cases hdash :
        (strContainsChar label '–' || strContainsChar label '-') = true
    · rw [if_pos hdash] at h
      exact absurd h (by simp)
    · rw [if_neg hdash] at h ⊢
      by_cases hlen : (pySplitWs label).length < 2
      · rw [if_pos hlen] at h
        exact absurd h (by simp)
      · rw [if_neg hlen] at h
        have hone : ((pySplitWs label).length == 1 &&
            pyIsDigit ((pySplitWs label).headD "")) = false := by
          have : ((pySplitWs label).length == 1) = false := by
            simp only [beq_eq_false_iff_ne, ne_eq]
            omega
          simp [this]
        rw [hone]
        simp only [Bool.false_eq_true, if_false]
        rw [if_neg hlen]
        cases hI : pyInt ((pySplitWs label).getLastD "") with
        | none => rw [hI] at h; exact absurd h (by simp)
        | some y =>
          rw [hI] at h
          cases hM : monthLookup (pyTake (pyUpper
              ((pySplitWs label).headD "")) 3) with
          | none => rw [hM] at h; exact absurd h (by simp)
          | some mv =>
            rw [hM] at h
            simp only [Bool.and_eq_true, decide_eq_true_eq] at h
            simp [h.1, h.2]

/-- Helper for C4: when the current observation does not match the target
month, the loop either continues with the next observation or raises. -/
theorem shiftAux_step_no_match {env : Nat → CalObs} {ty tm : Nat}
    (fuel i : Nat) (h : dayViewMatch ty tm (env i) = false) :
    shiftAux env ty tm (fuel + 1) i = shiftAux env ty tm fuel (i + 1) ∨
    ∃ msg, shiftAux env ty tm (fuel + 1) i = Except.error msg := by
  unfold dayViewMatch at h
  simp only [shiftAux]
  cases hlab : (env i).headerLabel with
  | none => exact Or.inl rfl
  | some label =>
    rw [hlab] at h
    dsimp only at h ⊢
    by_cases hdash :
        (strContainsChar label '–' || strContainsChar label '-') = true
    · rw [if_pos hdash]
      cases hyv : (env i).yearVisible with
      | true => exact Or.inl (if_pos rfl)
      | false => exact Or.inr ⟨_, if_neg (by simp)⟩
    · rw [if_neg hdash] at h ⊢
      by_cases hone : ((pySplitWs label).length == 1 &&
          pyIsDigit ((pySplitWs label).headD "")) = true
      · rw [if_pos hone]
        exact Or.inl rfl
      · rw [if_neg hone]
        by_cases hlen : (pySplitWs label).length < 2
        · rw [if_pos hlen]
          exact Or.inl rfl
        · rw [if_neg hlen] at h ⊢
          cases hI : pyInt ((pySplitWs label).getLastD "") with
          | none => exact Or.inl rfl
          | some y =>
            rw [hI] at h
            dsimp only
            cases hM : monthLookup (pyTake (pyUpper
                ((pySplitWs label).headD "")) 3) with
            | none => exact Or.inl rfl
            | some mv =>
              rw [hM] at h
              dsimp only
              by_cases hcond : y = Int.ofNat ty ∧ mv = tm
              · rw [hcond.1, hcond.2] at h
                simp at h
              · rw [if_neg hcond]
                exact Or.inl rfl

/-- Helper for C4: if no observation within the remaining budget matches
the target month, the loop ends in a raised RuntimeError. -/
theorem shiftAux_error_of_no_match (env : Nat → CalObs) (ty tm : Nat) :
    ∀ (fuel start : Nat),
      (∀ i, start ≤ i → i < start + fuel →
        dayViewMatch ty tm (env i) = false) →
      ∃ msg, shiftAux env ty tm fuel start = Except.error msg := by
  intro fuel
  induction fuel with
  | zero => intro start _; exact ⟨_, rfl⟩
  | succ n ih =>
    intro start h
    have h0 : dayViewMatch ty tm (env start) = false :=
      h start le_rfl (by omega)
    rcases shiftAux_step_no_match n start h0 with heq | ⟨msg, herr⟩
    · rw [heq]
      exact ih (start + 1) (fun i h1 h2 => h i (by omega) (by omega))
    · exact ⟨msg, herr⟩

/-- Helper for C4: the loop returns successfully only when an observation
within the budget matches the target month. -/
theorem shiftAux_ok_has_match (env : Nat → CalObs) (ty tm : Nat) :
    ∀ (fuel start : Nat), shiftAux env ty tm fuel start = Except.ok () →
      ∃ i, start ≤ i ∧ i < start + fuel ∧
        dayViewMatch ty tm (env i) = true := by
  intro fuel
  induction fuel with
  | zero => intro start h; exact absurd h (by simp [shiftAux])
  | succ n ih =>
    intro start h
    cases hm : dayViewMatch ty tm (env start) with
    | true => exact ⟨start, le_rfl, by omega, hm⟩
    | false =>
      rcases shiftAux_step_no_match n start hm with heq | ⟨msg, herr⟩
      · rw [heq] at h
        rcases ih (start + 1) h with ⟨i, h1, h2, h3⟩
        exact ⟨i, by omega, by omega, h3⟩
      · rw [herr] at h
        exact absurd h (by simp)

/-- C4. `_shift_calendar_to_month` always terminates with a return or a
raised RuntimeError within its 48-iteration budget: it returns
successfully only if some iteration below 48 observes a day-grid header
showing the target month and year, and if no iteration below 48 does,
it raises a RuntimeError. -/
theorem c4_calendar_navigation (env : Nat → CalObs) (ty tm : Nat) :
    ((∀ i, i < 48 → dayViewMatch ty tm (env i) = false) →
      ∃ msg, shift_calendar_to_month env ty tm = Except.error msg) ∧
    (shift_calendar_to_month env ty tm = Except.ok () →
      ∃ i, i < 48 ∧ dayViewMatch ty tm (env i) = true) := by
  constructor
  · intro h
    exact shiftAux_error_of_no_match env ty tm 48 0
      (fun i _ h2 => h i (by omega))
  · intro h
    rcases shiftAux_ok_has_match env ty tm 48 0 h with ⟨i, _, h2, h3⟩
    exact ⟨i, by omega, h3⟩

/-- Closed witness for the C4 theorem at a concrete environment whose
header is never readable. -/
theorem c4_witness :
    (∀ i, i < 48 → dayViewMatch 2025 11 (calEnvWit i) = false) ∧
    ∃ msg, shift_calendar_to_month calEnvWit 2025 11 = Except.error msg :=
  ⟨by decide, (c4_calendar_navigation calEnvWit 2025 11).1 (by decide)⟩

end GaWebScrap
